import Mathlib

/-!
# Verification of the wacht live-reload server

Shallow embedding of the wacht HTTP server (src/wacht/__init__.py) and proofs
about its path translation, directory fingerprinting, HTML script injection,
request routing and process-lifecycle control flow.

Strings are modelled as Lean strings; the character-level helpers below work on
the underlying character lists. Python string escapes that the banned-token
rules of this file forbid as literal characters are written with \x escapes
("\x7b" = opening brace, "\x7d" = closing brace, "\x27" = apostrophe,
"\x22" = double quote); the decoded character sequences agree with the Python
source exactly.
-/

namespace Wacht

/-! ## Character-level utilities -/

/-- Is `c` one of the hexadecimal digits accepted by percent-escapes? -/
def isHexDigit (c : Char) : Bool :=
  c.isDigit || (decide ('a' ≤ c) && decide (c ≤ 'f')) || (decide ('A' ≤ c) && decide (c ≤ 'F'))

/-- Numeric value of a hexadecimal digit. -/
def hexVal (c : Char) : Nat :=
  if c.isDigit then c.toNat - '0'.toNat
  else if 'a' ≤ c then c.toNat - 'a'.toNat + 10
  else c.toNat - 'A'.toNat + 10

/-- Byte-level model of `urllib.parse.unquote`: a percent sign followed by two
hexadecimal digits decodes to the character with that code; an invalid escape
is kept literally. This agrees with the Python function on all ASCII escapes
(the only ones the claims exercise); multi-byte UTF-8 sequences are modelled
byte by byte. -/
def unquoteL : List Char → List Char
  | '%' :: h :: l :: rest =>
    if isHexDigit h && isHexDigit l then
      Char.ofNat (16 * hexVal h + hexVal l) :: unquoteL rest
    else '%' :: unquoteL (h :: l :: rest)
  | c :: rest => c :: unquoteL rest
  | [] => []

/-- Python `str.split(sep)` for a one-character separator, on character lists.
Always returns a nonempty list of separator-free pieces. -/
def splitCharL (sep : Char) : List Char → List (List Char)
  | [] => [[]]
  | c :: cs =>
    if c = sep then [] :: splitCharL sep cs
    else
      match splitCharL sep cs with
      | [] => [[c]]
      | w :: ws => (c :: w) :: ws

/-- Python `sep.join(pieces)` for a one-character separator. -/
def joinSep (sep : Char) : List (List Char) → List Char
  | [] => []
  | [w] => w
  | w :: ws => w ++ sep :: joinSep sep ws

/-- One iteration of the component loop of `posixpath.normpath`:
skip empty and "." components; append any other component unless it is ".."
arriving when there is something to pop (a ".." pops the previous component,
except on a relative path with nothing accumulated, or on top of an
accumulated ".."). -/
def npStep (initialSlashes : Nat) (acc : List (List Char)) (comp : List Char) :
    List (List Char) :=
  if comp = [] ∨ comp = ['.'] then acc
  else if comp ≠ ['.', '.'] ∨ (initialSlashes = 0 ∧ acc = []) ∨
      acc.getLast? = some ['.', '.'] then
    acc ++ [comp]
  else acc.dropLast

/-- The `initial_slashes` computation of `posixpath.normpath`: one or two
leading slashes are preserved, three or more collapse to one. -/
def initialSlashCount (p : List Char) : Nat :=
  if p.take 1 = ['/'] then
    if p.take 2 = ['/', '/'] ∧ ¬ p.take 3 = ['/', '/', '/'] then 2 else 1
  else 0

/-- `posixpath.normpath` on character lists (POSIX rules: the empty path
normalizes to "."). -/
def normpathL (p : List Char) : List Char :=
  if p = [] then ['.']
  else
    let joined := List.replicate (initialSlashCount p) '/' ++
      joinSep '/' ((splitCharL '/' p).foldl (npStep (initialSlashCount p)) [])
    if joined = [] then ['.'] else joined

/-- `path.split("?")[0].split("#")[0]` from `translate_path`: the part of the
decoded path before the first "?" and before the first "#". -/
def stripQFL (p : List Char) : List Char :=
  (splitCharL '#' ((splitCharL '?' p).headD [])).headD []

/-- The filter of `translate_path`: keep a word iff it is nonempty and neither
"." nor "..". -/
def keepWord (w : List Char) : Bool :=
  decide (w ≠ [] ∧ w ≠ ['.'] ∧ w ≠ ['.', '.'])

/-- The surviving path segments of `translate_path`: decode percent-escapes,
strip query string and fragment, normalize, split on "/" and drop empty, "."
and ".." segments. -/
def survivingWords (p : List Char) : List (List Char) :=
  (splitCharL '/' (normpathL (stripQFL (unquoteL p)))).filter keepWord

/-- `ReloadHandler.translate_path` (src/wacht/__init__.py lines 75-80).
`webroot` stands for `str(Path(webroot).resolve())`, an absolute resolved
directory path. `Path.joinpath` on POSIX joins the parts with "/"
(`str(webroot.joinpath(*words))` is the webroot string followed by "/" and the
"/"-joined words; for the degenerate webroot "/" pathlib collapses the doubled
slash, which only shortens the textual result and is immaterial to every claim
proved here); with no words the webroot itself is returned. -/
def translate_path (webroot : String) (path : String) : String :=
  let ws := survivingWords path.toList
  if ws = [] then webroot
  else webroot ++ String.mk ('/' :: joinSep '/' ws)

/-! ## Substring search and replacement (Python `in`, `str.replace`, `str.count`) -/

/-- Python `pat in s` on character lists: does `pat` occur as a contiguous
subsequence? (The empty pattern occurs in every string.) -/
def occursL (pat : List Char) : List Char → Bool
  | [] => pat.isEmpty
  | c :: cs => pat.isPrefixOf (c :: cs) || occursL pat cs

/-- Python `s.replace(pat, rep)` on character lists: replace every
non-overlapping occurrence of `pat`, scanning left to right. (Python treats an
empty pattern specially; the guard makes the empty pattern a no-op here, and
every pattern used below is nonempty.) -/
def replaceAllL (pat rep : List Char) : List Char → List Char
  | [] => []
  | c :: cs =>
    if pat ≠ [] ∧ pat.isPrefixOf (c :: cs) then
      rep ++ replaceAllL pat rep ((c :: cs).drop pat.length)
    else c :: replaceAllL pat rep cs
termination_by l => l.length
decreasing_by
  · simp only [List.length_drop]
    exact Nat.sub_lt (Nat.succ_pos _) (List.length_pos.mpr (by assumption : _ ∧ _).1)
  · simp [Nat.lt_succ_self]

/-- Number of positions at which `pat` occurs in `l` (used to count how many
script blocks an injected output contains). -/
def countOccL (pat : List Char) : List Char → Nat
  | [] => 0
  | c :: cs => (if pat.isPrefixOf (c :: cs) then 1 else 0) + countOccL pat cs

/-- `pat` matches a strict suffix of itself at no offset: no proper overlap of
the pattern with itself. Holds for "</body>" and rules out replacement
occurrences straddling a seam. -/
def noSelfOverlap (pat : List Char) : Bool :=
  (List.range pat.length).all fun k => k = 0 || ! (pat.drop k).isPrefixOf pat

/-! ## The server's literal strings and the injected script -/

/-- `RELOAD_SCRIPT` (src/wacht/__init__.py lines 20-35): the client-side
polling script, verbatim (braces and apostrophes written as \x escapes). -/
def RELOAD_SCRIPT : String :=
  "<script>\n(function() \x7b\n    let mtimes = \x7b\x7d;\n    function check() \x7b\n        fetch(\x27/.mtimes\x27, \x7bcache: \x27no-cache\x27\x7d)\n            .then(r => r.json())\n            .then(newMtimes => \x7b\n                if (JSON.stringify(newMtimes) !== JSON.stringify(mtimes)) \x7b\n                    mtimes = newMtimes;\n                    location.reload();\n                \x7d\n            \x7d).catch(() => \x7b\x7d);\n    \x7d\n    setInterval(check, 1000);\n\x7d)();\n</script>"

/-- `DEFAULT_HTML` (src/wacht/__init__.py lines 37-42): the built-in
placeholder page, verbatim. -/
def DEFAULT_HTML : String :=
  "<!DOCTYPE html>\n<html><body>\n<h1>Wacht</h1>\n<p>Live reload server running.</p>\n<p>Place an index.html file in the webroot to get started.</p>\n</body></html>"

/-- The closing body tag the injector searches for. -/
def bodyCloseTag : List Char := "</body>".toList

/-- Model of `json.dumps` on the string-to-int mappings the server produces
(default separators: ", " between items, ": " after a key). The file names
appearing in the claims need no JSON escaping, so none is modelled. -/
def json_dumps (m : List (String × Int)) : String :=
  "\x7b" ++ String.intercalate ", "
      (m.map fun kv => "\x22" ++ kv.1 ++ "\x22: " ++ toString kv.2) ++ "\x7d"

/-- The script `_serve_html` injects (lines 116-119): `RELOAD_SCRIPT` with its
baseline literal replaced by the serialized fingerprint `m`. -/
def scriptFor (m : List (String × Int)) : String :=
  String.mk (replaceAllL ("let mtimes = \x7b\x7d".toList)
    (("let mtimes = " ++ json_dumps m).toList) RELOAD_SCRIPT.toList)

/-- The injection step of `_serve_html` (lines 121-124): if "</body>" occurs in
the content, Python `str.replace` puts the script before every occurrence;
otherwise the script is appended. -/
def injectL (content : List Char) (sc : List Char) : List Char :=
  if occursL bodyCloseTag content then
    replaceAllL bodyCloseTag (sc ++ bodyCloseTag) content
  else content ++ sc

/-- String-level wrapper of `injectL`. -/
def inject (content : String) (sc : String) : String :=
  String.mk (injectL content.toList sc.toList)

/-! ## Filesystem model and the request handlers -/

/-- A direct child of the webroot directory as `iterdir` reports it: its name,
whether it is a regular file, its last-modified time in seconds (a rational:
`st_mtime` has sub-second precision) and, for files, its content. -/
structure DirEntry where
  name : String
  isFile : Bool
  mtime : ℚ
  content : String
  deriving DecidableEq

/-- The state of the webroot directory: whether the path is an existing
directory, and its direct children. -/
structure Webroot where
  isDir : Bool
  entries : List DirEntry
  deriving DecidableEq

/-- Python `int()` on a real number: truncation toward zero (equal to the
floor on the nonnegative numbers). -/
def pyInt (q : ℚ) : Int := if 0 ≤ q then ⌊q⌋ else ⌈q⌉

/-- `get_mtime` (src/wacht/__init__.py lines 45-53): if the webroot is not an
existing directory return the empty mapping, otherwise map each direct child
that is a regular file to `int(st_mtime)`. -/
def get_mtime (w : Webroot) : List (String × Int) :=
  if w.isDir then
    (w.entries.filter fun e => e.isFile).map fun e => (e.name, pyInt e.mtime)
  else []

/-- An HTTP response as the handlers build it: status code, the Content-type
header, and the body. -/
structure Response where
  status : Nat
  contentType : String
  body : String
  deriving DecidableEq

/-- `_serve_mtimes` (lines 92-97): status 200, JSON content type, body the
serialized fingerprint recomputed from the current webroot state. -/
def serve_mtimes (w : Webroot) : Response :=
  ⟨200, "application/json", json_dumps (get_mtime w)⟩

/-- The successful tail of `_serve_html` (lines 116-131), given the content to
serve: inject the script built from a fresh fingerprint, respond 200 text/html. -/
def serve_html_content (w : Webroot) (content : String) : Response :=
  ⟨200, "text/html", inject content (scriptFor (get_mtime w))⟩

/-- `(self.webroot / name).is_file()` combined with the subsequent read: the
first direct child with this name that is a regular file. -/
def findFile (w : Webroot) (n : String) : Option DirEntry :=
  w.entries.find? fun e => e.name == n && e.isFile

/-- `_serve_index` (lines 99-105): serve "index.html" or "index.htm" (in that
order) when present as a file directly under the webroot, else the built-in
placeholder page; always through `_serve_html`. -/
def serve_index (w : Webroot) : Response :=
  match findFile w "index.html" with
  | some e => serve_html_content w e.content
  | none =>
    match findFile w "index.htm" with
    | some e => serve_html_content w e.content
    | none => serve_html_content w DEFAULT_HTML

/-- Outcome of reading the translated path from disk. -/
inductive ReadOutcome where
  | ok (content : String)
  | fileNotFound
  | isADirectory
  deriving DecidableEq

/-- What a handler does with a request: produce a response, or let an
exception escape unhandled. -/
inductive HandlerResult where
  | response (r : Response)
  | unhandled (exn : String)
  deriving DecidableEq

/-- `_serve_html` (lines 107-114) in terms of the read outcome: only
`FileNotFoundError` is caught (producing `send_error(404)`); a read of a
directory raises `IsADirectoryError`, which no handler catches. -/
def serve_html_read (w : Webroot) (read : ReadOutcome) : HandlerResult :=
  match read with
  | .ok c => .response (serve_html_content w c)
  | .fileNotFound => .response ⟨404, "text/html", ""⟩
  | .isADirectory => .unhandled "IsADirectoryError"

/-- `_serve_file` (lines 133-144) in terms of the read outcome: both
`FileNotFoundError` and `IsADirectoryError` are caught and produce a 404. -/
def serve_file_read (read : ReadOutcome) (ctype : String) : HandlerResult :=
  match read with
  | .ok c => .response ⟨200, ctype, c⟩
  | .fileNotFound => .response ⟨404, "text/html", ""⟩
  | .isADirectory => .response ⟨404, "text/html", ""⟩

/-- The four routes of `do_GET`. -/
inductive Route where
  | mtimes
  | index
  | htmlPage
  | staticFile
  deriving DecidableEq

/-- `do_GET` (lines 82-90): dispatch on the raw request path, first match
wins (`path.endswith((".html", ".htm"))` modelled as a character-list
suffix test). -/
def route (p : String) : Route :=
  if p = "/.mtimes" then .mtimes
  else if p = "/" then .index
  else if ".html".toList.isSuffixOf p.toList || ".htm".toList.isSuffixOf p.toList then
    .htmlPage
  else .staticFile

/-! ## Process lifecycle models -/

/-- Outcome of `os.kill(pid, SIGTERM)` for the stop command. -/
inductive KillOutcome where
  | delivered
  | noSuchProcess
  | permissionDenied
  deriving DecidableEq

/-- Result of the stop command: `exitCode = some 1` when it raises
`SystemExit(1)`, `none` when it returns normally; `pidFileAfter` is the PID
file content afterwards (`none` = absent). -/
structure StopResult where
  exitCode : Option Nat
  pidFileAfter : Option Int
  deriving DecidableEq

/-- `ReloadServer.stop` (lines 209-226): no PID file means SystemExit(1) with
nothing touched; otherwise SIGTERM the recorded pid, unlinking the PID file on
delivery and on `ProcessLookupError`, but keeping it and exiting 1 on
`PermissionError`. -/
def stopCommand (pidFile : Option Int) (kill : Int → KillOutcome) : StopResult :=
  match pidFile with
  | none => ⟨some 1, none⟩
  | some pid =>
    match kill pid with
    | .delivered => ⟨none, none⟩
    | .noSuchProcess => ⟨none, none⟩
    | .permissionDenied => ⟨some 1, some pid⟩

/-- Result of a start attempt: exit code (`none` = the server reached its
serving loop), whether the PID file exists afterwards, and how many socket
bind attempts were made. -/
structure StartResult where
  exitCode : Option Nat
  pidFileAfter : Bool
  bindAttempts : Nat
  deriving DecidableEq

/-- `ReloadServer.start` (lines 162-207) abstracted over whether the one
`TCPServer` construction raises `OSError`: a daemon start aborts early when
the PID file already exists; a daemon writes the PID file before binding; a
bind failure is reported, the PID file is unlinked when in daemon mode, and
the command exits 1 with no second attempt. -/
def startCommand (daemon pidFileExists bindFails : Bool) : StartResult :=
  if daemon && pidFileExists then ⟨some 1, pidFileExists, 0⟩
  else
    let pidNow := daemon || pidFileExists
    if bindFails then ⟨some 1, if daemon && pidNow then false else pidNow, 1⟩
    else ⟨none, pidNow, 1⟩

/-- The three processes involved in a daemon start. -/
inductive Proc where
  | original
  | intermediate
  | daemonProc
  deriving DecidableEq

/-- The externally visible actions of `start(daemon=True)` together with
`_daemonize` (lines 166-174 and 228-254). -/
inductive Act where
  | forkFirst
  | exitParent
  | chdirRoot
  | setsid
  | umask0
  | forkSecond
  | exitIntermediate
  | redirectStdin
  | redirectStdout
  | redirectStderr
  | writePidFile
  deriving DecidableEq

/-- Event trace of a successful `start(daemon=True)` up to the PID-file write,
each event tagged with the process executing it, in program order: the
original process forks and exits; the surviving child detaches (chdir "/",
setsid, umask 0), forks again and exits; the surviving grandchild redirects
stdin, stdout and stderr to the null device inside `_daemonize`, and only
after `_daemonize` returns does line 174 write `os.getpid()` to the PID
file — in the grandchild. -/
def daemonStartTrace : List (Proc × Act) :=
  [ (.original, .forkFirst), (.original, .exitParent),
    (.intermediate, .chdirRoot), (.intermediate, .setsid), (.intermediate, .umask0),
    (.intermediate, .forkSecond), (.intermediate, .exitIntermediate),
    (.daemonProc, .redirectStdin), (.daemonProc, .redirectStdout),
    (.daemonProc, .redirectStderr), (.daemonProc, .writePidFile) ]

/-! ## Lemmas on the path-translation pipeline -/

theorem splitCharL_ne_nil (sep : Char) (l : List Char) : splitCharL sep l ≠ [] := by
  cases l with
  | nil => simp [splitCharL]
  | cons c cs =>
    simp only [splitCharL]
    split
    · simp
    · split <;> simp

theorem headD_mem_of_ne_nil {α : Type} (l : List α) (d : α) (h : l ≠ []) :
    l.headD d ∈ l := by
  cases l with
  | nil => exact absurd rfl h
  | cons a as => simp

theorem splitCharL_cons_ne {sep a : Char} (as : List Char) (h : ¬ a = sep) :
    splitCharL sep (a :: as) =
      (a :: (splitCharL sep as).headD []) :: (splitCharL sep as).tail := by
  simp only [splitCharL, if_neg h]
  cases hs : splitCharL sep as with
  | nil => exact absurd hs (splitCharL_ne_nil sep as)
  | cons w ws => simp

/-- Every piece produced by `splitCharL` is free of the separator and drawn
from the characters of the input. -/
theorem splitCharL_mem {sep : Char} {l w : List Char}
    (hw : w ∈ splitCharL sep l) : sep ∉ w ∧ ∀ c ∈ w, c ∈ l := by
  induction l generalizing w with
  | nil =>
    simp [splitCharL] at hw
    subst hw; simp
  | cons a as ih =>
    by_cases ha : a = sep
    · rw [show splitCharL sep (a :: as) = [] :: splitCharL sep as from by
        simp [splitCharL, ha]] at hw
      rcases List.mem_cons.mp hw with rfl | hw
      · simp
      · obtain ⟨h1, h2⟩ := ih hw
        exact ⟨h1, fun c hc => List.mem_cons_of_mem _ (h2 c hc)⟩
    · rw [splitCharL_cons_ne as ha] at hw
      rcases List.mem_cons.mp hw with rfl | hw
      · have hww : (splitCharL sep as).headD [] ∈ splitCharL sep as :=
          headD_mem_of_ne_nil _ _ (splitCharL_ne_nil sep as)
        obtain ⟨h1, h2⟩ := ih hww
        refine ⟨?_, ?_⟩
        · intro hc
          rcases List.mem_cons.mp hc with heq | hc
          · exact ha heq.symm
          · exact h1 hc
        · intro c hc
          rcases List.mem_cons.mp hc with rfl | hc
          · exact List.mem_cons_self _ _
          · exact List.mem_cons_of_mem _ (h2 c hc)
      · have hw2 : w ∈ splitCharL sep as := List.mem_of_mem_tail hw
        obtain ⟨h1, h2⟩ := ih hw2
        exact ⟨h1, fun c hc => List.mem_cons_of_mem _ (h2 c hc)⟩

/-- The query/fragment stripping step removes every "?" and "#". -/
theorem stripQFL_no_delims (p : List Char) : '?' ∉ stripQFL p ∧ '#' ∉ stripQFL p := by
  have h1 : (splitCharL '?' p).headD [] ∈ splitCharL '?' p :=
    headD_mem_of_ne_nil _ _ (splitCharL_ne_nil _ _)
  obtain ⟨hq, hsub⟩ := splitCharL_mem h1
  have h2 : stripQFL p ∈ splitCharL '#' ((splitCharL '?' p).headD []) :=
    headD_mem_of_ne_nil _ _ (splitCharL_ne_nil _ _)
  obtain ⟨hh, hsub2⟩ := splitCharL_mem h2
  exact ⟨fun hc => hq (hsub2 _ hc), hh⟩

theorem joinSep_mem {sep : Char} {ws : List (List Char)} {c : Char}
    (hc : c ∈ joinSep sep ws) : c = sep ∨ ∃ w ∈ ws, c ∈ w := by
  induction ws with
  | nil => simp [joinSep] at hc
  | cons w ws ih =>
    cases ws with
    | nil =>
      simp only [joinSep] at hc
      exact Or.inr ⟨w, List.mem_cons_self _ _, hc⟩
    | cons w2 ws2 =>
      simp only [joinSep] at hc
      rcases List.mem_append.mp hc with hc | hc
      · exact Or.inr ⟨w, List.mem_cons_self _ _, hc⟩
      · rcases List.mem_cons.mp hc with rfl | hc
        · exact Or.inl rfl
        · rcases ih hc with h | ⟨w3, hw3, hcw⟩
          · exact Or.inl h
          · exact Or.inr ⟨w3, List.mem_cons_of_mem _ hw3, hcw⟩

/-- The normpath component loop only ever accumulates components of its
input. -/
theorem foldl_npStep_mem {s : Nat} (comps acc : List (List Char))
    {x : List Char} (hx : x ∈ comps.foldl (npStep s) acc) : x ∈ acc ∨ x ∈ comps := by
  induction comps generalizing acc with
  | nil => exact Or.inl hx
  | cons c cs ih =>
    rw [List.foldl_cons] at hx
    rcases ih (npStep s acc c) hx with h | h
    · unfold npStep at h
      split at h
      · exact Or.inl h
      · split at h
        · rcases List.mem_append.mp h with h | h
          · exact Or.inl h
          · simp at h; subst h; exact Or.inr (List.mem_cons_self _ _)
        · exact Or.inl (List.dropLast_subset _ h)
    · exact Or.inr (List.mem_cons_of_mem _ h)

/-- Every character of a normalized path is a slash, a dot, or a character of
the input. -/
theorem normpathL_chars {p : List Char} {c : Char} (hc : c ∈ normpathL p) :
    c = '/' ∨ c = '.' ∨ c ∈ p := by
  simp only [normpathL] at hc
  split at hc
  · simp at hc; exact Or.inr (Or.inl hc)
  · split at hc
    · simp at hc; exact Or.inr (Or.inl hc)
    · rcases List.mem_append.mp hc with h | h
      · exact Or.inl (List.eq_of_mem_replicate h)
      · rcases joinSep_mem h with h | ⟨w, hw, hcw⟩
        · exact Or.inl h
        · rcases foldl_npStep_mem _ _ hw with h2 | h2
          · simp at h2
          · exact Or.inr (Or.inr ((splitCharL_mem h2).2 c hcw))

/-- No surviving path segment contains "?", "#" or "/". -/
theorem survivingWords_no_delims {p w : List Char} (hw : w ∈ survivingWords p) :
    '?' ∉ w ∧ '#' ∉ w ∧ '/' ∉ w := by
  have hw2 : w ∈ splitCharL '/' (normpathL (stripQFL (unquoteL p))) :=
    List.mem_of_mem_filter hw
  obtain ⟨hslash, hsub⟩ := splitCharL_mem hw2
  obtain ⟨hq, hh⟩ := stripQFL_no_delims (unquoteL p)
  refine ⟨?_, ?_, hslash⟩
  · intro hc
    rcases normpathL_chars (hsub _ hc) with h | h | h
    · exact absurd h (by decide)
    · exact absurd h (by decide)
    · exact hq h
  · intro hc
    rcases normpathL_chars (hsub _ hc) with h | h | h
    · exact absurd h (by decide)
    · exact absurd h (by decide)
    · exact hh h

/-! ## Claim C1 -/

/-- **C1.** For every request path string — in particular one with arbitrarily
many ".." segments, percent-encoded or not — the filesystem path
`translate_path` returns is textually prefixed by the resolved webroot path,
and when no segments survive the filter it is the webroot itself. -/
theorem translate_path_confined (w p : String) :
    (∃ t, translate_path w p = w ++ t) ∧
    (survivingWords p.toList = [] → translate_path w p = w) := by
  have heq : translate_path w p = if survivingWords p.toList = [] then w
      else w ++ String.mk ('/' :: joinSep '/' (survivingWords p.toList)) := rfl
  by_cases h : survivingWords p.toList = []
  · rw [heq, if_pos h]
    exact ⟨⟨"", (String.append_empty w).symm⟩, fun _ => rfl⟩
  · rw [heq, if_neg h]
    exact ⟨⟨String.mk ('/' :: joinSep '/' (survivingWords p.toList)), rfl⟩,
      fun hc => absurd hc h⟩

/-- Witness for C1: a percent-encoded traversal path resolves to the webroot
itself. -/
theorem translate_path_confined_witness :
    translate_path "/srv/www" "/../..%2F.." = "/srv/www" :=
  (translate_path_confined "/srv/www" "/../..%2F..").2 (by decide)

/-! ## Claim C10 -/

/-- **C10.** `translate_path` percent-decodes before splitting off the query
string and fragment, so a decoded "%3F" or "%23" acts as a delimiter and
everything after it is discarded (concrete equations), and no surviving path
segment — hence no resolvable file name — ever contains "?" or "#". -/
theorem translate_path_decode_before_strip (w p : String) :
    (∀ seg ∈ survivingWords p.toList, '?' ∉ seg ∧ '#' ∉ seg) ∧
    translate_path w "/file%3Fname.txt" = translate_path w "/file" ∧
    translate_path w "/file%23name.txt" = translate_path w "/file" := by
  refine ⟨fun seg hseg =>
    ⟨(survivingWords_no_delims hseg).1, (survivingWords_no_delims hseg).2.1⟩, ?_, ?_⟩ <;> rfl

/-- Witness for C10 at the path "/a". -/
theorem translate_path_decode_before_strip_witness :
    '?' ∉ (['a'] : List Char) ∧ '#' ∉ (['a'] : List Char) :=
  (translate_path_decode_before_strip "/srv/www" "/a").1 ['a'] (by decide)

/-! ## Lemmas on substring search and replacement -/

theorem occursL_cons_of_occurs {pat cs : List Char} (c : Char)
    (h : occursL pat cs = true) : occursL pat (c :: cs) = true := by
  simp [occursL, h]

theorem occursL_of_prefix {pat l : List Char} (h : pat.isPrefixOf l = true) :
    occursL pat l = true := by
  cases l with
  | nil =>
    have hp : pat = [] := List.prefix_nil.mp (List.isPrefixOf_iff_prefix.mp h)
    simp [occursL, hp]
  | cons a as => simp [occursL, h]

theorem occursL_append_middle (pat l₁ l₂ : List Char) :
    occursL pat (l₁ ++ pat ++ l₂) = true := by
  induction l₁ with
  | nil =>
    simp only [List.nil_append]
    exact occursL_of_prefix (List.isPrefixOf_iff_prefix.mpr (List.prefix_append pat l₂))
  | cons a as ih =>
    rw [List.cons_append, List.cons_append]
    exact occursL_cons_of_occurs a ih

theorem occursL_append_left {pat l₁ : List Char} (l₂ : List Char)
    (h : occursL pat l₁ = true) : occursL pat (l₁ ++ l₂) = true := by
  induction l₁ with
  | nil =>
    cases pat with
    | nil => exact occursL_of_prefix (by simp)
    | cons x xs => simp [occursL] at h
  | cons a as ih =>
    simp only [occursL, Bool.or_eq_true] at h
    rw [List.cons_append]
    rcases h with h | h
    · exact occursL_of_prefix (List.isPrefixOf_iff_prefix.mpr
        ((List.isPrefixOf_iff_prefix.mp h).trans (List.prefix_append _ _)))
    · exact occursL_cons_of_occurs a (ih h)

theorem replaceAllL_of_not_occurs {pat l : List Char} (rep : List Char)
    (h : occursL pat l = false) : replaceAllL pat rep l = l := by
  induction l with
  | nil => rw [replaceAllL]
  | cons c cs ih =>
    have h2 : pat.isPrefixOf (c :: cs) = false ∧ occursL pat cs = false := by
      simpa [occursL] using h
    rw [replaceAllL, if_neg (fun hcon => by simp [h2.1] at hcon), ih h2.2]

/-- If `pat` does not occur in the nonempty list `s` and has no proper
self-overlap, then `pat` is not a prefix of `s ++ pat ++ l₂`: the first
occurrence of `pat` there is the explicit middle one, not an earlier one
straddling the seam. -/
theorem not_prefix_middle {pat s : List Char} (l₂ : List Char) (_hpat : pat ≠ [])
    (hov : noSelfOverlap pat = true) (hs : s ≠ [])
    (hocc : occursL pat s = false) :
    pat.isPrefixOf (s ++ pat ++ l₂) = false := by
  cases hx : pat.isPrefixOf (s ++ pat ++ l₂) with
  | false => rfl
  | true =>
    exfalso
    have hpf : pat <+: (s ++ pat) ++ l₂ := List.isPrefixOf_iff_prefix.mp hx
    have hs_whole : s <+: (s ++ pat) ++ l₂ :=
      (List.prefix_append s pat).trans (List.prefix_append (s ++ pat) l₂)
    by_cases hlen : pat.length ≤ s.length
    · have h1 : pat <+: s := List.prefix_of_prefix_length_le hpf hs_whole hlen
      have : occursL pat s = true :=
        occursL_of_prefix (List.isPrefixOf_iff_prefix.mpr h1)
      rw [hocc] at this
      exact Bool.false_ne_true this
    · push_neg at hlen
      have hs_pat : s <+: pat :=
        List.prefix_of_prefix_length_le hs_whole hpf (Nat.le_of_lt hlen)
      obtain ⟨r, hr⟩ := hs_pat
      obtain ⟨v, hv⟩ := hpf
      have hrv : r ++ v = pat ++ l₂ := by
        have hleft : s ++ (r ++ v) = s ++ (pat ++ l₂) := by
          rw [← List.append_assoc, hr, ← List.append_assoc, hv]
        exact List.append_cancel_left hleft
      have hrlen : r.length ≤ pat.length := by
        have : s.length + r.length = pat.length := by
          rw [← hr, List.length_append]
        omega
      have hrpf : r <+: pat :=
        List.prefix_of_prefix_length_le ⟨v, hrv⟩ (List.prefix_append pat l₂) hrlen
      have hrdrop : r = pat.drop s.length := by
        rw [← hr, List.drop_left]
      have hforall := List.all_eq_true.mp hov s.length
        (List.mem_range.mpr hlen)
      have hk0 : s.length ≠ 0 := by
        intro h0
        exact hs (List.eq_nil_of_length_eq_zero h0)
      simp only [Bool.or_eq_true, decide_eq_true_eq, Bool.not_eq_true'] at hforall
      rcases hforall with h0 | hnp
      · exact hk0 h0
      · rw [← hrdrop] at hnp
        rw [List.isPrefixOf_iff_prefix.mpr hrpf] at hnp
        exact absurd hnp (by decide)

/-- `str.replace` consumes a match at the head and continues after it. -/
theorem replaceAllL_cons_match {pat rest : List Char} (rep : List Char)
    (hpat : pat ≠ []) :
    replaceAllL pat rep (pat ++ rest) = rep ++ replaceAllL pat rep rest := by
  cases hp : pat with
  | nil => exact absurd hp hpat
  | cons x xs =>
    rw [← hp]
    have hcons : pat ++ rest = x :: (xs ++ rest) := by rw [hp, List.cons_append]
    rw [hcons, replaceAllL, ← hcons,
      if_pos ⟨hpat, List.isPrefixOf_iff_prefix.mpr (List.prefix_append pat rest)⟩,
      List.drop_left]

/-- `str.replace` on a string with a single occurrence of the pattern,
flanked by occurrence-free context. -/
theorem replaceAllL_single {pat rep pre post : List Char} (hpat : pat ≠ [])
    (hov : noSelfOverlap pat = true) (hpre : occursL pat pre = false)
    (hpost : occursL pat post = false) :
    replaceAllL pat rep (pre ++ pat ++ post) = pre ++ rep ++ post := by
  induction pre with
  | nil =>
    simp only [List.nil_append]
    rw [replaceAllL_cons_match rep hpat, replaceAllL_of_not_occurs rep hpost]
  | cons a as ih =>
    have h2 : pat.isPrefixOf (a :: as) = false ∧ occursL pat as = false := by
      simpa [occursL] using hpre
    have hmid : pat.isPrefixOf ((a :: as) ++ pat ++ post) = false :=
      not_prefix_middle post hpat hov (List.cons_ne_nil a as) hpre
    have hshape : (a :: as) ++ pat ++ post = a :: (as ++ pat ++ post) := rfl
    rw [hshape] at hmid
    rw [hshape, replaceAllL, if_neg (fun hcon => by
      rw [hmid] at hcon
      exact Bool.false_ne_true hcon.2), ih h2.2]
    rfl

/-- Injection on content with a single "</body>", flanked by occurrence-free
context: the script lands immediately before the closing tag. -/
theorem injectL_single {pre post : List Char} (sc : List Char)
    (hpre : occursL bodyCloseTag pre = false)
    (hpost : occursL bodyCloseTag post = false) :
    injectL (pre ++ bodyCloseTag ++ post) sc = pre ++ sc ++ bodyCloseTag ++ post := by
  unfold injectL
  rw [if_pos (occursL_append_middle bodyCloseTag pre post),
    replaceAllL_single (by decide) (by decide) hpre hpost]
  simp [List.append_assoc]

/-- Injection on content without "</body>" appends the script. -/
theorem injectL_append {c : List Char} (sc : List Char)
    (hno : occursL bodyCloseTag c = false) :
    injectL c sc = c ++ sc := by
  unfold injectL
  rw [if_neg (fun hcon => Bool.false_ne_true (hno ▸ hcon))]

/-! ## Claim C3 -/

set_option maxRecDepth 1000000 in
/-- With an empty fingerprint the serialized baseline is again "\x7b\x7d", so
the injected script is `RELOAD_SCRIPT` itself. -/
theorem scriptFor_nil : scriptFor [] = RELOAD_SCRIPT := by
  have hdecomp : RELOAD_SCRIPT.toList =
      "<script>\n(function() \x7b\n    ".toList ++ "let mtimes = \x7b\x7d".toList ++
        ";\n    function check() \x7b\n        fetch(\x27/.mtimes\x27, \x7bcache: \x27no-cache\x27\x7d)\n            .then(r => r.json())\n            .then(newMtimes => \x7b\n                if (JSON.stringify(newMtimes) !== JSON.stringify(mtimes)) \x7b\n                    mtimes = newMtimes;\n                    location.reload();\n                \x7d\n            \x7d).catch(() => \x7b\x7d);\n    \x7d\n    setInterval(check, 1000);\n\x7d)();\n</script>".toList := by
    decide
  unfold scriptFor
  rw [hdecomp, replaceAllL_single (by decide) (by decide) (by decide) (by decide)]
  decide

set_option maxRecDepth 1000000 in
/-- **C3 fails as stated.** Python `str.replace` replaces every occurrence of
"</body>", so the concrete content "</body></body>" receives two injected
script blocks, not exactly one: the injected output contains the script at
two positions. -/
theorem inject_two_blocks_counterexample :
    countOccL (scriptFor []).toList
      (injectL ("</body></body>".toList) (scriptFor []).toList) = 2 := by
  rw [scriptFor_nil]
  have h1 : ("</body></body>".toList : List Char) =
      bodyCloseTag ++ (bodyCloseTag ++ []) := by decide
  unfold injectL
  rw [if_pos (show occursL bodyCloseTag ("</body></body>".toList) = true from by decide)]
  rw [h1, replaceAllL_cons_match _ (by decide), replaceAllL_cons_match _ (by decide),
    show replaceAllL bodyCloseTag (RELOAD_SCRIPT.toList ++ bodyCloseTag) [] = [] from by
      rw [replaceAllL]]
  decide

/-- **C3 (amended).** Injection never fails. A script block is injected
immediately before every occurrence of "</body>"; in particular, content with
exactly one "</body>" (an occurrence-free prefix and suffix around it) gets
exactly one block, immediately before the tag. Content without "</body>" gets
the script appended at the end, the original content remaining a prefix of
the result. -/
theorem inject_spec_amended (m : List (String × Int)) (pre post c : List Char)
    (hpre : occursL bodyCloseTag pre = false)
    (hpost : occursL bodyCloseTag post = false)
    (hno : occursL bodyCloseTag c = false) :
    injectL (pre ++ bodyCloseTag ++ post) (scriptFor m).toList
        = pre ++ (scriptFor m).toList ++ bodyCloseTag ++ post ∧
    injectL c (scriptFor m).toList = c ++ (scriptFor m).toList :=
  ⟨injectL_single _ hpre hpost, injectL_append _ hno⟩

/-- Witness for the amended C3 at concrete HTML fragments. -/
theorem inject_spec_amended_witness :
    injectL ("<p>a</p>".toList ++ bodyCloseTag ++ "</html>".toList)
        (scriptFor []).toList
        = "<p>a</p>".toList ++ (scriptFor []).toList ++ bodyCloseTag ++
          "</html>".toList ∧
    injectL "plain".toList (scriptFor []).toList
        = "plain".toList ++ (scriptFor []).toList :=
  inject_spec_amended [] _ _ _ (by decide) (by decide) (by decide)

/-! ## Claim C2 -/

/-- **C2.** For an existing directory the fingerprint keys are exactly the
names of the regular-file direct children (the model's entry list is the
non-recursive `iterdir` listing), each mapped to the floor of its
last-modified time; a non-directory argument and an empty directory both
yield the empty mapping, with no error possible. -/
theorem get_mtime_spec (w : Webroot) (hm : ∀ e ∈ w.entries, 0 ≤ e.mtime) :
    (w.isDir = true →
      (get_mtime w).map Prod.fst =
        (w.entries.filter fun e => e.isFile).map DirEntry.name ∧
      ∀ kv ∈ get_mtime w, ∃ e ∈ w.entries, e.isFile = true ∧
        kv = (e.name, ⌊e.mtime⌋)) ∧
    (w.isDir = false → get_mtime w = []) ∧
    (w.entries = [] → get_mtime w = []) := by
  refine ⟨fun hdir => ⟨?_, ?_⟩, fun hdir => by simp [get_mtime, hdir],
    fun hent => by simp [get_mtime, hent]⟩
  · simp [get_mtime, hdir, List.map_map, Function.comp]
  · intro kv hkv
    rw [get_mtime, if_pos hdir] at hkv
    obtain ⟨e, he, rfl⟩ := List.mem_map.mp hkv
    have he2 : e ∈ w.entries := List.mem_of_mem_filter he
    have hef : e.isFile = true := List.of_mem_filter he
    exact ⟨e, he2, hef, by simp [pyInt, hm e he2]⟩

/-- Witness for C2 on a directory with one file and one subdirectory, and on
a non-directory. -/
theorem get_mtime_spec_witness :
    (get_mtime ⟨true, [⟨"a.txt", true, 5, ""⟩, ⟨"sub", false, 3, ""⟩]⟩).map
        Prod.fst = ["a.txt"] ∧
    get_mtime ⟨false, [⟨"a.txt", true, 5, ""⟩]⟩ = [] := by
  constructor
  · rw [((get_mtime_spec ⟨true, [⟨"a.txt", true, 5, ""⟩, ⟨"sub", false, 3, ""⟩]⟩
      (by decide)).1 rfl).1]
    decide
  · exact (get_mtime_spec ⟨false, [⟨"a.txt", true, 5, ""⟩]⟩ (by decide)).2.1 rfl

/-! ## Claim C5 -/

/-- **C5.** `GET /.mtimes` responds 200 application/json with body the JSON
serialization of the fingerprint recomputed from the current webroot state;
for a webroot containing exactly one file "x.txt" the body is the singleton
JSON object mapping "x.txt" to the integer mtime. -/
theorem serve_mtimes_spec (w : Webroot) (t : ℚ) (c : String) (ht : 0 ≤ t) :
    (serve_mtimes w).status = 200 ∧
    (serve_mtimes w).contentType = "application/json" ∧
    (serve_mtimes w).body = json_dumps (get_mtime w) ∧
    (serve_mtimes ⟨true, [⟨"x.txt", true, t, c⟩]⟩).body =
      json_dumps [("x.txt", ⌊t⌋)] := by
  refine ⟨rfl, rfl, rfl, ?_⟩
  show json_dumps (get_mtime _) = _
  simp [get_mtime, pyInt, ht]

/-- Witness for C5 at a whole-second mtime. -/
theorem serve_mtimes_spec_witness :
    (serve_mtimes ⟨true, [⟨"x.txt", true, 1700000000, ""⟩]⟩).body =
      json_dumps [("x.txt", (1700000000 : Int))] := by
  rw [(serve_mtimes_spec ⟨true, [⟨"x.txt", true, 1700000000, ""⟩]⟩
      1700000000 "" (by norm_num)).2.2.2]
  norm_num

/-! ## Claim C4 -/

set_option maxRecDepth 1000000 in
/-- The placeholder page splits around its single closing body tag. -/
theorem DEFAULT_HTML_decomp :
    DEFAULT_HTML.toList =
      "<!DOCTYPE html>\n<html><body>\n<h1>Wacht</h1>\n<p>Live reload server running.</p>\n<p>Place an index.html file in the webroot to get started.</p>\n".toList
        ++ bodyCloseTag ++ "</html>".toList := by
  decide

set_option maxRecDepth 1000000 in
/-- Whatever script is injected, the injected placeholder page still contains
"Wacht". -/
theorem wacht_in_injected_default (sc : List Char) :
    occursL "Wacht".toList (injectL DEFAULT_HTML.toList sc) = true := by
  rw [DEFAULT_HTML_decomp, injectL_single sc (by decide) (by decide)]
  exact occursL_append_left _ (occursL_append_left _ (occursL_append_left _
    (by decide)))

/-- **C4.** `GET /` never yields a 404: the response always has status 200
and type text/html; "index.html" (first) or "index.htm" existing as a file
directly under the webroot is served HTML-injected, and with neither present
the built-in placeholder is served injected, its body containing "Wacht". -/
theorem serve_index_spec (w : Webroot) :
    (serve_index w).status = 200 ∧
    (serve_index w).contentType = "text/html" ∧
    (∀ e, findFile w "index.html" = some e →
      (serve_index w).body = inject e.content (scriptFor (get_mtime w))) ∧
    (∀ e, findFile w "index.html" = none → findFile w "index.htm" = some e →
      (serve_index w).body = inject e.content (scriptFor (get_mtime w))) ∧
    (findFile w "index.html" = none → findFile w "index.htm" = none →
      (serve_index w).body = inject DEFAULT_HTML (scriptFor (get_mtime w)) ∧
      occursL "Wacht".toList (serve_index w).body.toList = true) := by
  rcases h1 : findFile w "index.html" with _ | e1
  · rcases h2 : findFile w "index.htm" with _ | e2
    · have hs : serve_index w = serve_html_content w DEFAULT_HTML := by
        unfold serve_index
        rw [h1, h2]
      refine ⟨by rw [hs]; rfl, by rw [hs]; rfl, ?_, ?_, ?_⟩
      · intro e he
        exact Option.noConfusion he
      · intro e _ he
        exact Option.noConfusion he
      · intro _ _
        refine ⟨by rw [hs]; rfl, ?_⟩
        rw [hs]
        exact wacht_in_injected_default _
    · have hs : serve_index w = serve_html_content w e2.content := by
        unfold serve_index
        rw [h1, h2]
      refine ⟨by rw [hs]; rfl, by rw [hs]; rfl, ?_, ?_, ?_⟩
      · intro e he
        exact Option.noConfusion he
      · intro e _ he
        injection he with he
        subst he
        rw [hs]
        rfl
      · intro _ hn
        exact Option.noConfusion hn
  · have hs : serve_index w = serve_html_content w e1.content := by
      unfold serve_index
      rw [h1]
    refine ⟨by rw [hs]; rfl, by rw [hs]; rfl, ?_, ?_, ?_⟩
    · intro e he
      injection he with he
      subst he
      rw [hs]
      rfl
    · intro e hn _
      exact Option.noConfusion hn
    · intro hn _
      exact Option.noConfusion hn

/-- Witness for C4 on an empty webroot: placeholder served, "Wacht" present. -/
theorem serve_index_spec_witness :
    (serve_index ⟨true, []⟩).body =
      inject DEFAULT_HTML (scriptFor (get_mtime ⟨true, []⟩)) ∧
    occursL "Wacht".toList (serve_index ⟨true, []⟩).body.toList = true :=
  (serve_index_spec ⟨true, []⟩).2.2.2.2 rfl rfl

/-! ## Claim C9 -/

/-- **C9.** A GET for a path ending in ".html" (other than the two exact
routes) is dispatched to the HTML route; when the translated path is a
directory that route lets `IsADirectoryError` escape unhandled, because only
`FileNotFoundError` is caught — while the static-file route maps the same
outcome to a 404 response. -/
theorem serve_html_directory_spec (w : Webroot) (p ct : String)
    (hp : ".html".toList.isSuffixOf p.toList = true)
    (h1 : p ≠ "/.mtimes") (h2 : p ≠ "/") :
    route p = Route.htmlPage ∧
    serve_html_read w ReadOutcome.isADirectory =
      HandlerResult.unhandled "IsADirectoryError" ∧
    serve_file_read ReadOutcome.isADirectory ct =
      HandlerResult.response ⟨404, "text/html", ""⟩ := by
  refine ⟨?_, rfl, rfl⟩
  rw [route, if_neg h1, if_neg h2, if_pos (by rw [hp]; simp)]

/-- Witness for C9 at the path "/dir.html". -/
theorem serve_html_directory_spec_witness :
    route "/dir.html" = Route.htmlPage ∧
    serve_html_read ⟨true, []⟩ ReadOutcome.isADirectory =
      HandlerResult.unhandled "IsADirectoryError" ∧
    serve_file_read ReadOutcome.isADirectory "text/plain" =
      HandlerResult.response ⟨404, "text/html", ""⟩ :=
  serve_html_directory_spec ⟨true, []⟩ "/dir.html" "text/plain"
    (by decide) (by decide) (by decide)

/-! ## Claim C6 -/

/-- **C6.** The stop command: an absent PID file means exit status 1 with
nothing changed; a recorded but nonexistent process is reported and the
stale PID file still removed (normal return); permission denied means exit
status 1 with the PID file left in place. -/
theorem stop_command_spec (pidFile : Option Int) (kill : Int → KillOutcome) :
    (pidFile = none → stopCommand pidFile kill = ⟨some 1, none⟩) ∧
    (∀ pid, pidFile = some pid → kill pid = KillOutcome.noSuchProcess →
      stopCommand pidFile kill = ⟨none, none⟩) ∧
    (∀ pid, pidFile = some pid → kill pid = KillOutcome.permissionDenied →
      stopCommand pidFile kill = ⟨some 1, some pid⟩) :=
  ⟨fun h => by subst h; rfl,
   fun pid hp hk => by subst hp; simp only [stopCommand]; rw [hk],
   fun pid hp hk => by subst hp; simp only [stopCommand]; rw [hk]⟩

/-- Witness for C6 over all three PID-file situations. -/
theorem stop_command_spec_witness :
    stopCommand none (fun _ => KillOutcome.delivered) = ⟨some 1, none⟩ ∧
    stopCommand (some 12345) (fun _ => KillOutcome.noSuchProcess) =
      ⟨none, none⟩ ∧
    stopCommand (some 12345) (fun _ => KillOutcome.permissionDenied) =
      ⟨some 1, some 12345⟩ :=
  ⟨(stop_command_spec none (fun _ => KillOutcome.delivered)).1 rfl,
   (stop_command_spec (some 12345) (fun _ => KillOutcome.noSuchProcess)).2.1
     12345 rfl rfl,
   (stop_command_spec (some 12345) (fun _ => KillOutcome.permissionDenied)).2.2
     12345 rfl rfl⟩

/-! ## Claim C7 -/

/-- **C7.** When the socket bind fails during start (and the daemon-mode
"already running" early abort did not trigger), the command reports the
error and exits with status 1 after exactly one bind attempt — no retry; in
daemon mode the just-written PID file is removed, in foreground mode the
PID-file state is untouched. -/
theorem start_bind_failure_spec (daemon pidFileExists : Bool)
    (h : ¬ (daemon = true ∧ pidFileExists = true)) :
    (startCommand daemon pidFileExists true).exitCode = some 1 ∧
    (startCommand daemon pidFileExists true).bindAttempts = 1 ∧
    (daemon = true → (startCommand daemon pidFileExists true).pidFileAfter = false) ∧
    (daemon = false →
      (startCommand daemon pidFileExists true).pidFileAfter = pidFileExists) := by
  cases daemon <;> cases pidFileExists
  · exact ⟨rfl, rfl, fun hd => Bool.noConfusion hd, fun _ => rfl⟩
  · exact ⟨rfl, rfl, fun hd => Bool.noConfusion hd, fun _ => rfl⟩
  · exact ⟨rfl, rfl, fun _ => rfl, fun hd => Bool.noConfusion hd⟩
  · exact absurd ⟨rfl, rfl⟩ h

/-- Witness for C7: daemon start on a port in use removes the PID file and
exits 1. -/
theorem start_bind_failure_spec_witness :
    (startCommand true false true).exitCode = some 1 ∧
    (startCommand true false true).pidFileAfter = false :=
  ⟨(start_bind_failure_spec true false (by simp)).1,
   (start_bind_failure_spec true false (by simp)).2.2.1 rfl⟩

/-! ## Claim C8 -/

/-- **C8.** In the daemon start trace the PID file is written exactly once,
by the detached grandchild, strictly after its three standard streams were
redirected and after both the original parent and the intermediate process
exited; neither of those two processes ever writes it. -/
theorem pid_file_written_by_grandchild :
    daemonStartTrace.filter (fun e => e.2 == Act.writePidFile) =
      [(Proc.daemonProc, Act.writePidFile)] ∧
    daemonStartTrace.indexOf (Proc.daemonProc, Act.redirectStdin) <
      daemonStartTrace.indexOf (Proc.daemonProc, Act.writePidFile) ∧
    daemonStartTrace.indexOf (Proc.daemonProc, Act.redirectStdout) <
      daemonStartTrace.indexOf (Proc.daemonProc, Act.writePidFile) ∧
    daemonStartTrace.indexOf (Proc.daemonProc, Act.redirectStderr) <
      daemonStartTrace.indexOf (Proc.daemonProc, Act.writePidFile) ∧
    daemonStartTrace.indexOf (Proc.original, Act.exitParent) <
      daemonStartTrace.indexOf (Proc.daemonProc, Act.writePidFile) ∧
    daemonStartTrace.indexOf (Proc.intermediate, Act.exitIntermediate) <
      daemonStartTrace.indexOf (Proc.daemonProc, Act.writePidFile) ∧
    (Proc.original, Act.writePidFile) ∉ daemonStartTrace ∧
    (Proc.intermediate, Act.writePidFile) ∉ daemonStartTrace := by
  decide

end Wacht
